import Mathlib

/-
Verification of the ESP32-Clock hardware-abstraction core: a shallow
embedding of src/clock/pca9685.py (PCA9685 / PWMPin / ServoController /
ServoPin) and src/clock/clock.py (Segment), together with theorems about
the claims of the specification.

Modelling conventions:
* Every stateful operation of the Python code is embedded as a pure
  function returning `List BusOp × Except Err α`: the list records the
  bus transactions (and blocking sleeps) performed before the operation
  returned or raised, in order; the `Except` carries the Python
  exception, if any.  A raised exception keeps the transactions already
  issued, exactly as in the Python code.
* Python ints are `ℤ`; register/byte data are `ℕ`.
* Python `round` on a float is modelled as Mathlib `round` on `ℚ`
  (see the comment at `PCA9685.set_frequency`).
-/

namespace ESP32Clock

/-- A bus-visible effect: an I2C register write (`i2c.writeto_mem`),
an I2C register read (`i2c.readfrom_mem`), or a blocking delay
(`sleep_us`). -/
inductive BusOp where
  | writeMem (i2cAddr memAddr : ℕ) (data : List ℕ)
  | readMem (i2cAddr memAddr : ℕ) (len : ℕ)
  | sleepUs (us : ℕ)
deriving DecidableEq

/-- Python exceptions raised by the embedded code. `NotImplementedError`
raised by `PWMPin._duty_bound` is caught inside `duty.setter` and hence
never escapes; it needs no constructor. -/
inductive Err where
  | valueError
  | indexError
deriving DecidableEq

instance {ε α : Type} [DecidableEq ε] [DecidableEq α] :
    DecidableEq (Except ε α) := fun a b =>
  match a, b with
  | .error e, .error f => decidable_of_iff (e = f) (by simp)
  | .error _, .ok _ => .isFalse (by simp)
  | .ok _, .error _ => .isFalse (by simp)
  | .ok x, .ok y => decidable_of_iff (x = y) (by simp)

/-- Result of a stateful operation: the trace of bus effects it
performed, and either its value or the exception it raised. -/
abbrev Tr (α : Type) : Type := List BusOp × Except Err α

/-- Sequencing of stateful operations: an exception aborts the rest of
the computation but keeps the effects already performed. -/
def bindTr (x : Tr Unit) (k : Unit → Tr Unit) : Tr Unit :=
  match x with
  | (t, .error e) => (t, .error e)
  | (t, .ok u) =>
      let y := k u
      (t ++ y.1, y.2)

/-- Argument of `PCA9685.write_memory`: the Python code branches on
`type(values)`, accepting raw `bytes` (written unchecked) or a
`tuple`/`list` of ints (each checked to be a byte). -/
inductive WMValues where
  | bytes (data : List ℕ)
  | seq (values : List ℤ)

/-- Embedding of `PCA9685.write_memory` (src/clock/pca9685.py).
Raw bytes are written as-is; a sequence of ints is validated
(`0 <= value <= 255` for each) before the single bus write. -/
def PCA9685.write_memory (i2cAddr memAddr : ℕ) : WMValues → Tr Unit
  | .bytes data => ([.writeMem i2cAddr memAddr data], .ok ())
  | .seq values =>
      if ∀ v ∈ values, 0 ≤ v ∧ v ≤ 255 then
        ([.writeMem i2cAddr memAddr (values.map Int.toNat)], .ok ())
      else
        ([], .error .valueError)

/-- Embedding of `PCA9685.read_memory` (src/clock/pca9685.py).
`mem` models the peripheral's register file as seen by
`i2c.readfrom_mem` (sequential register addresses).  The guard admits
`length == 1 or length % 2 == 0`; otherwise a `ValueError` is raised
before any bus transaction.  `ustruct.unpack` of an `unsigned char`
sequence returns the same bytes, so the `unpack` flag does not change
the modelled value. -/
def PCA9685.read_memory (mem : ℕ → ℕ) (i2cAddr memAddr len : ℕ)
    (unpack : Bool) : Tr (List ℕ) :=
  if len = 1 ∨ len % 2 = 0 then
    ([.readMem i2cAddr memAddr len],
     .ok ((List.range len).map fun k => mem (memAddr + k)))
  else
    ([], .error .valueError)

/-- Embedding of the `PCA9685.frequency` getter: read one byte at the
prescaler register 0xFE and return `round(25_000_000 / (4096 * (scale + 1)))`.
The Python expression divides floats; for every prescale byte the exact
rational `25000000 / (4096*(scale+1))` is never at distance `< 2/(128*(scale+1))`
from a half-integer (since `781250 = 2 * 390625` with `390625` odd is not
divisible by `64`), which dwarfs the double-precision rounding error, so
Python `round` (banker's rounding of the float) agrees with Mathlib
`round` of the exact rational. -/
def PCA9685.get_frequency (mem : ℕ → ℕ) (i2cAddr : ℕ) : Tr ℤ :=
  match PCA9685.read_memory mem i2cAddr 0xFE 1 true with
  | (t, .ok data) =>
      (t, .ok (round ((25000000 : ℚ) / (4096 * ((data.headI : ℚ) + 1)))))
  | (t, .error e) => (t, .error e)

/-- Embedding of the `PCA9685.frequency` setter: guard `24 <= f <= 1526`,
compute `scale = round(25_000_000 / (4096.0 * f))`, then the five-step
sleep/prescale/wake sequence.  As in `get_frequency`, the exact rational
`25000000/(4096*f)` is never within `2/(128*f)` of a half-integer, far
beyond the float64 error of the Python expression, so Mathlib `round`
on `ℚ` is a faithful model of Python `round` here. -/
def PCA9685.set_frequency (i2cAddr : ℕ) (frequency : ℤ) : Tr Unit :=
  if 24 ≤ frequency ∧ frequency ≤ 1526 then
    let scale : ℤ := round ((25000000 : ℚ) / (4096 * (frequency : ℚ)))
    bindTr (PCA9685.write_memory i2cAddr 0x00 (.seq [0x10])) fun _ =>
    bindTr (PCA9685.write_memory i2cAddr 0xFE (.seq [scale])) fun _ =>
    bindTr (PCA9685.write_memory i2cAddr 0x00 (.seq [0x00])) fun _ =>
    bindTr ([.sleepUs 500], .ok ()) fun _ =>
    PCA9685.write_memory i2cAddr 0x00 (.seq [0xA1])
  else
    ([], .error .valueError)

/-- First register address of pin `index`: `0x06 + 4 * index`
(src/clock/pca9685.py, `PWMPin.__init__`). -/
def PWMPin.address (index : ℕ) : ℕ := 0x06 + 4 * index

/-- Embedding of `PWMPin.set_pwm`: guard `0 <= on <= 4095 and
0 <= off <= 4096`, then write the two counts as 4 bytes little-endian
(`ustruct.pack("<2H", on, off)`) at the pin's register address.  The
packed buffer is `bytes`, so `write_memory` performs no further
validation.  The Python parameters `on`/`off` are named `onv`/`offv`
here because `on` is reserved in Lean. -/
def PWMPin.set_pwm (parentAddr index : ℕ) (onv offv : ℤ) : Tr Unit :=
  if 0 ≤ onv ∧ onv ≤ 4095 ∧ 0 ≤ offv ∧ offv ≤ 4096 then
    PCA9685.write_memory parentAddr (PWMPin.address index)
      (.bytes [onv.toNat % 256, onv.toNat / 256, offv.toNat % 256, offv.toNat / 256])
  else
    ([], .error .valueError)

/-- Embedding of the `PWMPin.duty` getter's decoding step, applied to
the `(on, off)` pair unpacked from the pin's registers:
`(0, 4096) ↦ 0`, `(4096, 0) ↦ 4095`, otherwise the off count. -/
def PWMPin.duty_get (onv offv : ℤ) : ℤ :=
  if onv = 0 ∧ offv = 4096 then 0
  else if onv = 4096 ∧ offv = 0 then 4095
  else offv

/-- Unpacking `"<2H"` of a 4-byte buffer into the `(on, off)` counts,
as done by the `PWMPin.pwm` getter. -/
def PWMPin.unpack2H (data : List ℕ) : ℤ × ℤ :=
  ((data.headI + 256 * (data.drop 1).headI : ℕ),
   ((data.drop 2).headI + 256 * (data.drop 3).headI : ℕ))

/-- Embedding of the `PWMPin.duty` setter on a base `PWMPin`: the
`_duty_bound` hook raises `NotImplementedError`, which the setter
catches and ignores, so the value is used unchanged; then the three-way
encoding `0 ↦ (0, 4096)`, `4095 ↦ (4096, 0)`, `v ↦ (0, v)` is passed to
`set_pwm`. -/
def PWMPin.duty_set (parentAddr index : ℕ) (value : ℤ) : Tr Unit :=
  if value = 0 then PWMPin.set_pwm parentAddr index 0 4096
  else if value = 4095 then PWMPin.set_pwm parentAddr index 4096 0
  else PWMPin.set_pwm parentAddr index 0 value

/-- The data of a `ServoController` needed by the embedded operations:
its I2C address and the servo duty bounds stored at construction
(src/clock/pca9685.py, `ServoController.__init__`). -/
structure ServoController where
  address : ℕ
  min_duty : ℤ
  max_duty : ℤ

/-- Embedding of `ServoPin._duty_bound`:
`min(parent.max_duty, max(parent.min_duty, value))`. -/
def ServoPin.duty_bound (minDuty maxDuty value : ℤ) : ℤ :=
  min maxDuty (max minDuty value)

/-- Embedding of the `PWMPin.duty` setter as inherited by `ServoPin`:
the `_duty_bound` override clamps the value into
`[min_duty, max_duty]` before the three-way `set_pwm` encoding. -/
def ServoPin.duty_set (sc : ServoController) (index : ℕ) (value : ℤ) : Tr Unit :=
  let v := ServoPin.duty_bound sc.min_duty sc.max_duty value
  if v = 0 then PWMPin.set_pwm sc.address index 0 4096
  else if v = 4095 then PWMPin.set_pwm sc.address index 4096 0
  else PWMPin.set_pwm sc.address index 0 v

/-- The `bits_representation` tuple of src/clock/clock.py: 7-segment
mask for each decimal digit. -/
def bits_representation : List ℕ :=
  [0x3F, 0x06, 0x5B, 0x4F, 0x66, 0x6D, 0x7D, 0x07, 0x7F, 0x6F]

/-- Python tuple indexing with an `int` index: negative indices count
from the end; an index out of `[-len, len)` raises `IndexError`. -/
def pyTupleGet (xs : List ℕ) (i : ℤ) : Except Err ℕ :=
  let j := if i < 0 then i + xs.length else i
  if h : 0 ≤ j ∧ j.toNat < xs.length then .ok (xs.get ⟨j.toNat, h.2⟩)
  else .error .indexError

/-- `self.ones` of `Segment.__init__`: `enumerate(range(7))`. -/
def Segment.ones : List (ℕ × ℕ) := (List.range 7).map fun i => (i, i)

/-- `self.tens` of `Segment.__init__`: `enumerate(range(7, 14))`. -/
def Segment.tens : List (ℕ × ℕ) := (List.range 7).map fun i => (i, i + 7)

/-- Embedding of `Segment.duties` (src/clock/clock.py): the configured
`(off, on)` pair for the pin, falling back to
`(board.min_duty, board.max_duty)` when the list access raises
`IndexError`. -/
def Segment.duties (sc : ServoController) (dutiesList : List (ℤ × ℤ))
    (pin : ℕ) : ℤ × ℤ :=
  if h : pin < dutiesList.length then dutiesList.get ⟨pin, h⟩
  else (sc.min_duty, sc.max_duty)

/-- One `for index, pin in ...` loop of `Segment.write`, over the given
`(index, pin)` pairs for one digit: per iteration, resolve the duty
pair, index `bits_representation` with the digit (this is where an
out-of-range digit raises `IndexError`), and drive the pin to its on
or off duty according to the mask bit. -/
def Segment.writeDigit (sc : ServoController) (dutiesList : List (ℤ × ℤ))
    (digit : ℤ) : List (ℕ × ℕ) → Tr Unit
  | [] => ([], .ok ())
  | (index, pin) :: rest =>
      let od := Segment.duties sc dutiesList pin
      match pyTupleGet bits_representation digit with
      | .error e => ([], .error e)
      | .ok mask =>
          let value := if mask &&& 2 ^ index ≠ 0 then od.2 else od.1
          bindTr (ServoPin.duty_set sc pin value) fun _ =>
            Segment.writeDigit sc dutiesList digit rest

/-- Embedding of `Segment.write` (src/clock/clock.py):
`tens, ones = divmod(number, 10)` (Python floor division and modulo),
then the ones loop over channels 0-6 followed by the tens loop over
channels 7-13. -/
def Segment.write (sc : ServoController) (dutiesList : List (ℤ × ℤ))
    (number : ℤ) : Tr Unit :=
  let tensDigit := Int.fdiv number 10
  let onesDigit := Int.fmod number 10
  bindTr (Segment.writeDigit sc dutiesList onesDigit Segment.ones) fun _ =>
    Segment.writeDigit sc dutiesList tensDigit Segment.tens

/-- The `ServoController` of the end-to-end scenario: address 0x40 and
the default duty bounds `min_duty = 180`, `max_duty = 500`. -/
def sc0 : ServoController := ⟨0x40, 180, 500⟩

end ESP32Clock

namespace ESP32Clock

/-- C2: with an empty duty table over a controller with min_duty 180
and max_duty 500, `Segment.write 42` issues exactly 14 channel duty
writes, in channel order 0-13: the ones digit 2 (mask 0x5B) drives
channels 0, 1, 3, 4, 6 to the on duty 500 (bytes `[0,0,244,1]`, i.e.
pwm pair `(0, 500)`) and channels 2, 5 to the off duty 180; the tens
digit 4 (mask 0x66) drives channels 8, 9, 12, 13 to 500 and channels
7, 10, 11 to 180; no other bus transaction occurs and the call
succeeds. -/
theorem segment_write_42_trace :
    Segment.write sc0 [] 42 =
      ([.writeMem 0x40 6  [0, 0, 244, 1],
        .writeMem 0x40 10 [0, 0, 244, 1],
        .writeMem 0x40 14 [0, 0, 180, 0],
        .writeMem 0x40 18 [0, 0, 244, 1],
        .writeMem 0x40 22 [0, 0, 244, 1],
        .writeMem 0x40 26 [0, 0, 180, 0],
        .writeMem 0x40 30 [0, 0, 244, 1],
        .writeMem 0x40 34 [0, 0, 180, 0],
        .writeMem 0x40 38 [0, 0, 244, 1],
        .writeMem 0x40 42 [0, 0, 244, 1],
        .writeMem 0x40 46 [0, 0, 180, 0],
        .writeMem 0x40 50 [0, 0, 180, 0],
        .writeMem 0x40 54 [0, 0, 244, 1],
        .writeMem 0x40 58 [0, 0, 244, 1]], .ok ()) := by
  decide

/-- Rounding a ratio of naturals is the natural division
`(2a + b) / (2b)` (the ratio is never a half-integer for the arguments
used here, where this matters only through `round_eq`). -/
lemma round_natCast_div (a b : ℕ) (hb : 0 < b) :
    round ((a : ℚ) / (b : ℚ)) = ((2 * a + b) / (2 * b) : ℕ) := by
  have hb' : ((b : ℚ)) ≠ 0 := by positivity
  rw [round_eq]
  have h1 : (a : ℚ) / b + 1 / 2
      = (((2 * a + b : ℕ) : ℤ) : ℚ) / (((2 * b : ℕ)) : ℚ) := by
    push_cast
    field_simp
    ring
  rw [h1, Rat.floor_intCast_div_natCast]
  norm_cast

/-- Evaluation of the frequency getter: one prescaler-register read,
returning `round(25_000_000 / (4096 * (scale + 1)))` as a natural
division. -/
lemma get_frequency_eval (mem : ℕ → ℕ) (a : ℕ) :
    PCA9685.get_frequency mem a =
      ([.readMem a 0xFE 1],
       .ok (((50000000 + 4096 * (mem 0xFE + 1)) / (8192 * (mem 0xFE + 1)) : ℕ) : ℤ)) := by
  have hdata : List.map (fun k => mem (0xFE + k)) (List.range 1) = [mem 0xFE] := by
    simp [List.range_succ]
  have h4 : (4096 : ℚ) * ((mem 0xFE : ℚ) + 1)
      = ((4096 * (mem 0xFE + 1) : ℕ) : ℚ) := by push_cast; ring
  have hnum : 2 * 25000000 + 4096 * (mem 0xFE + 1)
      = 50000000 + 4096 * (mem 0xFE + 1) := by ring
  have hden : 2 * (4096 * (mem 0xFE + 1)) = 8192 * (mem 0xFE + 1) := by ring
  have hkey : round ((25000000 : ℚ) / (4096 * ((mem 0xFE : ℚ) + 1)))
      = (((50000000 + 4096 * (mem 0xFE + 1)) / (8192 * (mem 0xFE + 1)) : ℕ) : ℤ) := by
    rw [show (25000000 : ℚ) = ((25000000 : ℕ) : ℚ) from by norm_num, h4,
        round_natCast_div 25000000 _ (by omega), hnum, hden]
  unfold PCA9685.get_frequency PCA9685.read_memory
  rw [if_pos (Or.inl rfl), hdata]
  dsimp only [List.headI]
  rw [hkey]

/-- The prescale value computed by the frequency setter, as a natural
division, for in-range frequencies. -/
lemma set_frequency_scale (f : ℤ) (h1 : 24 ≤ f) :
    round ((25000000 : ℚ) / (4096 * (f : ℚ)))
      = (((50000000 + 4096 * f.toNat) / (8192 * f.toNat) : ℕ) : ℤ) := by
  have hf : (f : ℚ) = ((f.toNat : ℕ) : ℚ) := by
    exact_mod_cast congrArg (Int.cast : ℤ → ℚ) (Int.toNat_of_nonneg (by omega)).symm
  have h4 : (4096 : ℚ) * ((f.toNat : ℕ) : ℚ) = ((4096 * f.toNat : ℕ) : ℚ) := by
    push_cast
    ring
  have hnum : 2 * 25000000 + 4096 * f.toNat = 50000000 + 4096 * f.toNat := by ring
  have hden : 2 * (4096 * f.toNat) = 8192 * f.toNat := by ring
  rw [hf, h4, show (25000000 : ℚ) = ((25000000 : ℕ) : ℚ) from by norm_num,
      round_natCast_div 25000000 _ (by omega), hnum, hden]

/-- For every in-range frequency the computed prescale value is a byte,
so the prescaler write passes `write_memory`'s value check. -/
lemma scale_bounds (f : ℤ) (h1 : 24 ≤ f) (h2 : f ≤ 1526) :
    0 ≤ round ((25000000 : ℚ) / (4096 * (f : ℚ)))
    ∧ round ((25000000 : ℚ) / (4096 * (f : ℚ))) ≤ 255 := by
  rw [set_frequency_scale f h1]
  have hn : 24 ≤ f.toNat := by omega
  have hlt : (50000000 + 4096 * f.toNat) / (8192 * f.toNat) < 256 := by
    rw [Nat.div_lt_iff_lt_mul (by omega)]
    omega
  have hle : (50000000 + 4096 * f.toNat) / (8192 * f.toNat) ≤ 255 := by omega
  exact ⟨Int.natCast_nonneg _, by exact_mod_cast hle⟩

/-- A sequence write whose values are all bytes issues its single bus
transaction. -/
lemma write_memory_seq_ok (a reg : ℕ) (values : List ℤ)
    (h : ∀ v ∈ values, 0 ≤ v ∧ v ≤ 255) :
    PCA9685.write_memory a reg (.seq values)
      = ([.writeMem a reg (values.map Int.toNat)], .ok ()) := by
  unfold PCA9685.write_memory
  dsimp only
  rw [if_pos h]

/-- Full evaluation of the frequency setter on an in-range frequency:
the exact five-step sequence of the datasheet protocol. -/
lemma set_frequency_eval (a : ℕ) (f : ℤ) (h1 : 24 ≤ f) (h2 : f ≤ 1526) :
    PCA9685.set_frequency a f =
      ([.writeMem a 0x00 [0x10],
        .writeMem a 0xFE [(round ((25000000 : ℚ) / (4096 * (f : ℚ)))).toNat],
        .writeMem a 0x00 [0x00],
        .sleepUs 500,
        .writeMem a 0x00 [0xA1]], .ok ()) := by
  have hs := scale_bounds f h1 h2
  unfold PCA9685.set_frequency
  rw [if_pos ⟨h1, h2⟩]
  dsimp only
  rw [write_memory_seq_ok a 0x00 [0x10] (by norm_num),
      write_memory_seq_ok a 0xFE [round ((25000000 : ℚ) / (4096 * (f : ℚ)))]
        (by simpa using hs),
      write_memory_seq_ok a 0x00 [0x00] (by norm_num),
      write_memory_seq_ok a 0x00 [0xA1] (by norm_num)]
  rfl

/-- C3: for every frequency in `[24, 1526]`, the setter computes
`scale = round(25_000_000 / (4096.0 * f))` and emits exactly, in order:
mode := 0x10 (sleep bit), prescaler (0xFE) := scale, mode := 0x00, a
blocking 500 microsecond wait, mode := 0xA1 (restart + auto-increment);
no other bus transaction occurs. -/
theorem set_frequency_sequence (a : ℕ) (f : ℤ) (h1 : 24 ≤ f) (h2 : f ≤ 1526) :
    PCA9685.set_frequency a f =
      ([.writeMem a 0x00 [0x10],
        .writeMem a 0xFE [(round ((25000000 : ℚ) / (4096 * (f : ℚ)))).toNat],
        .writeMem a 0x00 [0x00],
        .sleepUs 500,
        .writeMem a 0x00 [0xA1]], .ok ()) :=
  set_frequency_eval a f h1 h2

/-- Witness for C3 at `f = 50` (the servo default), where the computed
prescale is `round(6103.515625 / 50) = 122`. -/
theorem set_frequency_sequence_witness :
    PCA9685.set_frequency 0x40 50 =
      ([.writeMem 0x40 0x00 [0x10], .writeMem 0x40 0xFE [122],
        .writeMem 0x40 0x00 [0x00], .sleepUs 500, .writeMem 0x40 0x00 [0xA1]],
       .ok ()) := by
  have h := set_frequency_sequence 0x40 50 (by decide) (by decide)
  rw [h, set_frequency_scale 50 (by decide)]
  norm_num
  decide

/-- C7: the frequency setter succeeds exactly on `[24, 1526]`, and a
rejected call raises before any bus write (empty trace). -/
theorem set_frequency_range_spec (a : ℕ) (f : ℤ) :
    ((PCA9685.set_frequency a f).2 = .ok () ↔ 24 ≤ f ∧ f ≤ 1526)
    ∧ (¬(24 ≤ f ∧ f ≤ 1526) →
        PCA9685.set_frequency a f = ([], .error .valueError)) := by
  have hneg : ¬(24 ≤ f ∧ f ≤ 1526) →
      PCA9685.set_frequency a f = ([], .error .valueError) := by
    intro h
    unfold PCA9685.set_frequency
    rw [if_neg h]
  refine ⟨⟨?_, ?_⟩, hneg⟩
  · intro hok
    by_contra h
    rw [hneg h] at hok
    simp at hok
  · rintro ⟨h1, h2⟩
    rw [set_frequency_eval a f h1 h2]

/-- Witness for C7 at the four boundary frequencies of the claim:
23 and 1527 fail with no bus write, 24 and 1526 succeed. -/
theorem set_frequency_range_spec_witness :
    PCA9685.set_frequency 0x40 23 = ([], .error .valueError)
    ∧ PCA9685.set_frequency 0x40 1527 = ([], .error .valueError)
    ∧ (PCA9685.set_frequency 0x40 24).2 = .ok ()
    ∧ (PCA9685.set_frequency 0x40 1526).2 = .ok () :=
  ⟨(set_frequency_range_spec 0x40 23).2 (by decide),
   (set_frequency_range_spec 0x40 1527).2 (by decide),
   (set_frequency_range_spec 0x40 24).1.mpr (by decide),
   (set_frequency_range_spec 0x40 1526).1.mpr (by decide)⟩

/-- C8 (against the code): the setter omits the datasheet's `- 1` in
the prescale formula (the getter inverts `scale = round(...) - 1`, the
setter stores `round(...)`), so a set/get round-trip lands one
prescaler step low and is NOT within the achievable granularity.
`set_frequency 1526` stores prescale 4 and reads back as 1221, even
though 1526 is exactly achievable (prescale 3: get = 1526) — an error
of 305 Hz against an achievable granularity of 0.  `set_frequency 1027`
stores prescale 6 and reads back 872; the achievable frequencies at the
adjacent prescales 5 and 7 are 1017 and 763, so the round-trip error
`1027 - 872 = 155` exceeds one full prescaler step on either side
(`1017 - 872 = 145`, `872 - 763 = 109`), and 1017 lies strictly
between the requested and returned values. -/
theorem frequency_roundtrip_off_by_one :
    (PCA9685.set_frequency 0x40 1526).1 =
      [.writeMem 0x40 0x00 [0x10], .writeMem 0x40 0xFE [4],
       .writeMem 0x40 0x00 [0x00], .sleepUs 500, .writeMem 0x40 0x00 [0xA1]]
    ∧ PCA9685.get_frequency (fun _ => 4) 0x40 = ([.readMem 0x40 0xFE 1], .ok 1221)
    ∧ PCA9685.get_frequency (fun _ => 3) 0x40 = ([.readMem 0x40 0xFE 1], .ok 1526)
    ∧ (PCA9685.set_frequency 0x40 1027).1 =
      [.writeMem 0x40 0x00 [0x10], .writeMem 0x40 0xFE [6],
       .writeMem 0x40 0x00 [0x00], .sleepUs 500, .writeMem 0x40 0x00 [0xA1]]
    ∧ PCA9685.get_frequency (fun _ => 6) 0x40 = ([.readMem 0x40 0xFE 1], .ok 872)
    ∧ PCA9685.get_frequency (fun _ => 5) 0x40 = ([.readMem 0x40 0xFE 1], .ok 1017)
    ∧ PCA9685.get_frequency (fun _ => 7) 0x40 = ([.readMem 0x40 0xFE 1], .ok 763) := by
  refine ⟨?_, ?_, ?_, ?_, ?_, ?_, ?_⟩
  · rw [set_frequency_eval 0x40 1526 (by decide) (by decide),
        set_frequency_scale 1526 (by decide)]
    norm_num
    decide
  · rw [get_frequency_eval]
    norm_num
  · rw [get_frequency_eval]
    norm_num
  · rw [set_frequency_eval 0x40 1027 (by decide) (by decide),
        set_frequency_scale 1027 (by decide)]
    norm_num
    decide
  · rw [get_frequency_eval]
    norm_num
  · rw [get_frequency_eval]
    norm_num
  · rw [get_frequency_eval]
    norm_num

/-- The clamp lands in `[minDuty, maxDuty]` whenever the bounds are
ordered; shared by the clamp and servo-duty theorems. -/
lemma duty_bound_mem (minDuty maxDuty v : ℤ) (h : minDuty ≤ maxDuty) :
    minDuty ≤ ServoPin.duty_bound minDuty maxDuty v
    ∧ ServoPin.duty_bound minDuty maxDuty v ≤ maxDuty := by
  unfold ServoPin.duty_bound
  omega

/-- C5: for ordered duty bounds, `ServoPin._duty_bound` clamps every
requested integer duty into `[min_duty, max_duty]`, and the clamp is
idempotent. -/
theorem servo_clamp_spec (minDuty maxDuty v : ℤ) (h : minDuty ≤ maxDuty) :
    minDuty ≤ ServoPin.duty_bound minDuty maxDuty v
    ∧ ServoPin.duty_bound minDuty maxDuty v ≤ maxDuty
    ∧ ServoPin.duty_bound minDuty maxDuty (ServoPin.duty_bound minDuty maxDuty v)
        = ServoPin.duty_bound minDuty maxDuty v := by
  unfold ServoPin.duty_bound
  omega

/-- Witness for C5 at the servo defaults 180/500 and request 9999. -/
theorem servo_clamp_spec_witness :
    (180 : ℤ) ≤ ServoPin.duty_bound 180 500 9999
    ∧ ServoPin.duty_bound 180 500 9999 ≤ 500
    ∧ ServoPin.duty_bound 180 500 (ServoPin.duty_bound 180 500 9999)
        = ServoPin.duty_bound 180 500 9999 :=
  servo_clamp_spec 180 500 9999 (by decide)

/-- C6: `set_pwm` fails (with `ValueError`, the embedded ProtocolError)
exactly when `not (0 <= on <= 4095 and 0 <= off <= 4096)`, issuing no
bus transaction in that case; otherwise it performs the single bus
write of the two counts packed as 4 little-endian bytes at the pin's
register offset. -/
theorem set_pwm_range_spec (a i : ℕ) (onv offv : ℤ) :
    (¬(0 ≤ onv ∧ onv ≤ 4095 ∧ 0 ≤ offv ∧ offv ≤ 4096) →
      PWMPin.set_pwm a i onv offv = ([], .error .valueError))
    ∧ ((0 ≤ onv ∧ onv ≤ 4095 ∧ 0 ≤ offv ∧ offv ≤ 4096) →
      PWMPin.set_pwm a i onv offv =
        ([.writeMem a (0x06 + 4 * i)
            [onv.toNat % 256, onv.toNat / 256, offv.toNat % 256, offv.toNat / 256]],
         .ok ())) := by
  constructor <;> intro h <;> unfold PWMPin.set_pwm
  · rw [if_neg h]
  · rw [if_pos h]
    rfl

/-- Witness for C6: the scenario `on = 4096, off = 1` fails with no bus
transaction, and a valid pair `(0, 500)` on pin 3 writes its 4 bytes. -/
theorem set_pwm_range_spec_witness :
    PWMPin.set_pwm 0x40 3 4096 1 = ([], .error .valueError)
    ∧ PWMPin.set_pwm 0x40 3 0 500 =
        ([.writeMem 0x40 18 [0, 0, 244, 1]], .ok ()) := by
  refine ⟨(set_pwm_range_spec 0x40 3 4096 1).1 (by decide), ?_⟩
  have h := (set_pwm_range_spec 0x40 3 0 500).2 (by decide)
  simpa using h

/-- C9: `read_memory` fails (with `ValueError`, the embedded
InvalidLengthError) exactly when the length is neither 1 nor even, and
performs no bus transaction in that case; for length 1 or any even
length it performs the bus read and returns the bytes. -/
theorem read_memory_length_spec (mem : ℕ → ℕ) (a reg len : ℕ) (u : Bool) :
    (¬(len = 1 ∨ len % 2 = 0) →
      PCA9685.read_memory mem a reg len u = ([], .error .valueError))
    ∧ ((len = 1 ∨ len % 2 = 0) →
      PCA9685.read_memory mem a reg len u =
        ([.readMem a reg len],
         .ok ((List.range len).map fun k => mem (reg + k)))) := by
  constructor <;> intro h <;> unfold PCA9685.read_memory
  · rw [if_neg h]
  · rw [if_pos h]

/-- Witness for C9: over the register file `n % 7`, the odd length 3 is
rejected with no transaction, while the even length 4 reads 4 bytes. -/
theorem read_memory_length_spec_witness :
    PCA9685.read_memory (fun n => n % 7) 0x40 10 3 true = ([], .error .valueError)
    ∧ PCA9685.read_memory (fun n => n % 7) 0x40 10 4 true =
        ([.readMem 0x40 10 4], .ok [3, 4, 5, 6]) := by
  refine ⟨(read_memory_length_spec (fun n => n % 7) 0x40 10 3 true).1 (by decide), ?_⟩
  have h := (read_memory_length_spec (fun n => n % 7) 0x40 10 4 true).2 (by decide)
  simpa using h

/-- C4 (against the code): the duty round-trip breaks at `v = 4095`.
The duty setter maps 4095 to the full-on pair `(4096, 0)`, but
`set_pwm`'s own guard requires `on <= 4095`, so the call raises
`ValueError` and writes nothing — even though the duty getter's
`(4096, 0) ↦ 4095` branch expects exactly that register state.  The
round-trip does hold at 0 (pair `(0, 4096)`, bytes `[0,0,0,16]`) and at
mid-scale values such as 2048 (pair `(0, 2048)`). -/
theorem pwm_duty_full_on_rejected :
    PWMPin.duty_set 0x40 0 4095 = ([], .error .valueError)
    ∧ PWMPin.duty_get 4096 0 = 4095
    ∧ PWMPin.duty_set 0x40 0 0 = ([.writeMem 0x40 6 [0, 0, 0, 16]], .ok ())
    ∧ PWMPin.duty_get 0 4096 = 0
    ∧ PWMPin.duty_set 0x40 0 2048 = ([.writeMem 0x40 6 [0, 0, 0, 8]], .ok ())
    ∧ PWMPin.duty_get 0 2048 = 2048 := by
  decide

/-- The duty round-trip of the spec does hold below the full-on value:
for `0 <= v <= 4094`, the base `PWMPin` duty setter performs exactly one
register write, and decoding the written pair with the duty getter
recovers `v`. -/
theorem pwm_duty_roundtrip_below_full_on (a i : ℕ) (v : ℤ)
    (h0 : 0 ≤ v) (h1 : v ≤ 4094) :
    ∃ data : List ℕ,
      PWMPin.duty_set a i v = ([.writeMem a (0x06 + 4 * i) data], .ok ())
      ∧ PWMPin.duty_get (PWMPin.unpack2H data).1 (PWMPin.unpack2H data).2 = v := by
  by_cases hv : v = 0
  · subst hv
    refine ⟨[0, 0, 0, 16], ?_, by decide⟩
    unfold PWMPin.duty_set
    rw [if_pos rfl]
    unfold PWMPin.set_pwm
    rw [if_pos (by norm_num)]
    rfl
  · have hv' : ¬(v = 4095) := by omega
    refine ⟨[0, 0, v.toNat % 256, v.toNat / 256], ?_, ?_⟩
    · unfold PWMPin.duty_set
      rw [if_neg hv, if_neg hv']
      unfold PWMPin.set_pwm
      rw [if_pos ⟨by norm_num, by norm_num, h0, by omega⟩]
      rfl
    · unfold PWMPin.unpack2H PWMPin.duty_get
      have hmd : (v.toNat % 256 + 256 * (v.toNat / 256) : ℕ) = v.toNat :=
        Nat.mod_add_div _ _
      simp only [List.headI, List.drop]
      rw [if_neg (by push_cast; omega), if_neg (by push_cast; omega)]
      push_cast
      omega

/-- Witness for `pwm_duty_roundtrip_below_full_on` at `v = 300`. -/
theorem pwm_duty_roundtrip_below_full_on_witness :
    ∃ data : List ℕ,
      PWMPin.duty_set 0x40 1 300 = ([.writeMem 0x40 (0x06 + 4 * 1) data], .ok ())
      ∧ PWMPin.duty_get (PWMPin.unpack2H data).1 (PWMPin.unpack2H data).2 = 300 :=
  pwm_duty_roundtrip_below_full_on 0x40 1 300 (by decide) (by decide)

/-- C10: through a `ServoPin` whose controller has bounds
`0 < min_duty <= max_duty < 4095`, every duty assignment performs
exactly one pwm register write, of the pair `(0, c)` for the clamped
value `c` in `[min_duty, max_duty]`; its byte image is never the
dedicated full-off encoding `(0, 4096)` (bytes `[0,0,0,16]`) nor the
full-on encoding `(4096, 0)` (bytes `[0,16,0,0]`). -/
theorem servo_duty_single_write_spec (a i : ℕ) (minDuty maxDuty v : ℤ)
    (hm : 0 < minDuty) (hmm : minDuty ≤ maxDuty) (hM : maxDuty < 4095) :
    ∃ c : ℤ, minDuty ≤ c ∧ c ≤ maxDuty ∧
      ServoPin.duty_set ⟨a, minDuty, maxDuty⟩ i v =
        ([.writeMem a (0x06 + 4 * i) [0, 0, c.toNat % 256, c.toNat / 256]], .ok ())
      ∧ [0, 0, c.toNat % 256, c.toNat / 256] ≠ [0, 0, 0, 16]
      ∧ [0, 0, c.toNat % 256, c.toNat / 256] ≠ [0, 16, 0, 0] := by
  obtain ⟨hc1, hc2⟩ := duty_bound_mem minDuty maxDuty v hmm
  refine ⟨ServoPin.duty_bound minDuty maxDuty v, hc1, hc2, ?_, ?_, by simp⟩
  · unfold ServoPin.duty_set
    dsimp only
    rw [if_neg (by omega), if_neg (by omega)]
    unfold PWMPin.set_pwm
    rw [if_pos ⟨by norm_num, by norm_num, by omega, by omega⟩]
    rfl
  · intro hbad
    simp only [List.cons.injEq, and_true] at hbad
    omega

/-- Witness for C10 with bounds 180/500 on pin 2 and request 9999. -/
theorem servo_duty_single_write_spec_witness :
    ∃ c : ℤ, (180 : ℤ) ≤ c ∧ c ≤ 500 ∧
      ServoPin.duty_set ⟨0x40, 180, 500⟩ 2 9999 =
        ([.writeMem 0x40 (0x06 + 4 * 2) [0, 0, c.toNat % 256, c.toNat / 256]], .ok ())
      ∧ [0, 0, c.toNat % 256, c.toNat / 256] ≠ [0, 0, 0, 16]
      ∧ [0, 0, c.toNat % 256, c.toNat / 256] ≠ [0, 16, 0, 0] :=
  servo_duty_single_write_spec 0x40 2 180 500 9999 (by decide) (by decide) (by decide)

/-- C1: `Segment.write` has no out-of-range guard.  `write(-1)`
succeeds and issues 14 register writes (Python `divmod(-1, 10) =
(-1, 9)` and the negative tuple index `-1` wraps to digit 9, so the
face renders 99 — the trace equals that of `write 99`); `write(100)`
issues the 7 ones-place register writes (digit 0) and only then raises
`IndexError` on `bits_representation[10]`, leaving the hardware
partially mutated.  This refutes the claimed rejection-before-any-write
behaviour at both failing inputs of the claim. -/
theorem segment_write_unguarded :
    (Segment.write sc0 [] (-1)).2 = .ok ()
    ∧ (Segment.write sc0 [] (-1)).1.length = 14
    ∧ (Segment.write sc0 [] (-1)).1 = (Segment.write sc0 [] 99).1
    ∧ (Segment.write sc0 [] 100).2 = .error .indexError
    ∧ (Segment.write sc0 [] 100).1.length = 7 := by
  decide

end ESP32Clock
